import Mathlib

/-!
Verification of the snekrpc RPC framework core against its specification.

The development shallowly embeds the parts of the source that the checked
properties are about:

* the TCP/Unix length-prefixed framing (src/snekrpc/transport/tcp.py),
* the per-connection server handler loop (src/snekrpc/protocol.py, handle),
* the message model and the codec encode/decode hooks
  (src/snekrpc/protocol.py, src/snekrpc/codec/__init__.py),
* the client command send path (src/snekrpc/protocol.py, send_cmd),
* the client handshake (src/snekrpc/protocol.py, req_handshake),
* the retry policy (src/snekrpc/utils/retry.py),
* command signature encoding and decoding (src/snekrpc/utils/function.py),
* service registration (src/snekrpc/interface.py) and the client proxy
  attribute lookup (src/snekrpc/service/__init__.py).

Machine integers are modelled as Nat with explicit bounds where the source
uses fixed-width values (the 4-byte frame length prefix).  Byte strings are
lists of Nat.  Fallible code returns Option or Except.
-/

namespace Snekrpc

/-! ## TCP/Unix framing (src/snekrpc/transport/tcp.py, lines 163-209) -/

/-- Default chunk size io.DEFAULT_BUFFER_SIZE used by the transport
(tcp.py line 17). -/
def CHUNK_SIZE : Nat := 8192

/-- Big-endian 4-byte encoding of a frame length, as produced by
struct.pack with format string greater-than I (tcp.py, send, line 206).
Bytes are Nat values below 256. -/
def packBE4 (n : Nat) : List Nat :=
  [n / 2 ^ 24 % 256, n / 2 ^ 16 % 256, n / 2 ^ 8 % 256, n % 256]

/-- Big-endian 4-byte decoding, as done by struct.unpack in recviter
(tcp.py line 186). -/
def unpackBE4 : List Nat → Nat
  | a :: b :: c :: d :: _ => ((a * 256 + b) * 256 + c) * 256 + d
  | _ => 0

/-- Normalization of the chunk_size argument (tcp.py line 194):
`chunk_size or CHUNK_SIZE` replaces None and 0 by the default. -/
def normChunk : Option Nat → Nat
  | Option.none => CHUNK_SIZE
  | some 0 => CHUNK_SIZE
  | some (c + 1) => c + 1

/-- Loop body of recvsize (tcp.py lines 191-200): repeatedly call
sock.recv for at most c bytes until size bytes have been read.  The
socket is modelled as the list of bytes the peer sent before closing;
a recv returns the maximal available prefix of the requested amount,
and an empty chunk (peer closed) raises ReceiveInterrupted, modelled
as Option.none.  On success returns the bytes read and the rest of
the stream. -/
def recvsizeGo (c : Nat) : Nat → List Nat → Option (List Nat × List Nat)
  | 0, s => some ([], s)
  | size + 1, s =>
    if h : (s.take (min (size + 1) c)).length = 0 then Option.none
    else
      match recvsizeGo c (size + 1 - (s.take (min (size + 1) c)).length)
          (s.drop (min (size + 1) c)) with
      | Option.none => Option.none
      | some (r, s1) => some (s.take (min (size + 1) c) ++ r, s1)
termination_by size _ => size
decreasing_by
  simp only [List.length_take] at h
  simp_wf
  omega

/-- recvsize (tcp.py lines 191-200): the chunk size is first normalized
and capped at size. -/
def recvsize (c0 : Option Nat) (size : Nat) (s : List Nat) :
    Option (List Nat × List Nat) :=
  recvsizeGo (min size (normChunk c0)) size s

/-- recviter (tcp.py lines 183-188): read the 4-byte prefix, decode the
length, then read exactly that many payload bytes.  Only the payload
chunks are yielded; Option.none models ReceiveInterrupted escaping. -/
def recviter (c0 : Option Nat) (s : List Nat) : Option (List Nat × List Nat) :=
  match recvsize c0 4 s with
  | Option.none => Option.none
  | some (buf, s1) =>
    match recvsize c0 (unpackBE4 buf) s1 with
    | Option.none => Option.none
    | some (d, s2) => some (d, s2)

/-- recv (tcp.py lines 173-180): join the yielded chunks;
ReceiveInterrupted is caught and surfaced as an empty byte string.
Returns the payload and the unread rest of the stream. -/
def recv (c0 : Option Nat) (s : List Nat) : List Nat × List Nat :=
  match recviter c0 s with
  | Option.none => ([], s)
  | some r => r

/-- send (tcp.py lines 203-208): write the 4-byte big-endian length
prefix then the payload.  struct.pack raises struct.error for a length
that does not fit in 4 bytes, modelled as Option.none. -/
def send (data : List Nat) : Option (List Nat) :=
  if data.length < 2 ^ 32 then some (packBE4 data.length ++ data) else Option.none

/-! ## Server handler loop (src/snekrpc/protocol.py, handle, lines 84-102)

The loop is modelled over the sequence of outcomes of its iterations: what
recv_msg returned and, for a CommandMessage, how dispatch ended.  Commands
are identified by a Nat. -/

/-- Outcome of one iteration of the handle loop as seen at the try block
(protocol.py lines 87-95). -/
inductive StepEvent where
  /-- recv_msg returned None: the peer closed the connection. -/
  | closed
  /-- recv_msg returned a CommandMessage and recv_cmd completed. -/
  | cmdOk (id : Nat)
  /-- recv_msg returned a CommandMessage and recv_cmd raised an ordinary
  exception. -/
  | cmdFail (id : Nat)
  /-- recv_msg returned a message that is not a CommandMessage, so the loop
  raises MessageError (handled by the generic except clause). -/
  | nonCommand
  /-- recv_msg or dispatch raised a TransportError. -/
  | transportErr
  deriving DecidableEq

/-- Observable actions of a run of the handle loop. -/
structure HandleTrace where
  /-- Commands dispatched, in order (protocol.py line 93). -/
  dispatched : List Nat
  /-- Number of ErrorMessages sent back via send_err (line 102). -/
  errorsSent : Nat
  /-- Number of transport errors logged (lines 97-99). -/
  transportLogs : Nat
  deriving DecidableEq

/-- Protocol.handle (protocol.py lines 84-102).  The while True loop
returns only when recv_msg yields None; a TransportError is logged and
the loop continues with the next iteration (the except clause at lines
97-99 contains no return or break); any other exception is sent back as
an ErrorMessage and the loop continues. -/
def handle : List StepEvent → HandleTrace
  | [] => ⟨[], 0, 0⟩
  | StepEvent.closed :: _ => ⟨[], 0, 0⟩
  | StepEvent.cmdOk i :: rest =>
    let t := handle rest
    ⟨i :: t.dispatched, t.errorsSent, t.transportLogs⟩
  | StepEvent.cmdFail i :: rest =>
    let t := handle rest
    ⟨i :: t.dispatched, t.errorsSent + 1, t.transportLogs⟩
  | StepEvent.nonCommand :: rest =>
    let t := handle rest
    ⟨t.dispatched, t.errorsSent + 1, t.transportLogs⟩
  | StepEvent.transportErr :: rest =>
    let t := handle rest
    ⟨t.dispatched, t.errorsSent, t.transportLogs + 1⟩

/-! ## Wire values and the codec hooks
(src/snekrpc/codec/__init__.py, msgpack.py, json.py)

Values are the data the codecs move: scalars, byte strings, datetimes,
generators, arrays and string-keyed mappings.  Sequences and mappings are
mutual inductives so that every function below is structural and computable
by the kernel.  A generator carries the items it would yield, which is what
distinguishes the original generator from the fresh empty one produced by
decode_generator. -/

mutual
inductive Value where
  | nil
  | bool (b : Bool)
  | int (n : Int)
  | str (s : String)
  | bytes (b : List Nat)
  | datetime (t : Nat)
  | generator (items : ValueSeq)
  | arr (items : ValueSeq)
  | map (entries : ValueMap)
  deriving DecidableEq
inductive ValueSeq where
  | nil
  | cons (hd : Value) (tl : ValueSeq)
  deriving DecidableEq
inductive ValueMap where
  | nil
  | cons (key : String) (val : Value) (tl : ValueMap)
  deriving DecidableEq
end

/-- Modelled from the spec: temporenc.packb, the external round-trip-safe
compact binary datetime encoding used by encode_datetime
(codec/__init__.py lines 63-71); the temporenc library is not part of this
repository.  A datetime is modelled as a Nat timestamp and its packed form
as the little-endian base-256 digits. -/
def natToBytes : Nat → List Nat
  | 0 => []
  | n + 1 => (n + 1) % 256 :: natToBytes ((n + 1) / 256)

/-- Modelled from the spec: temporenc.unpackb composed with .datetime()
(codec/__init__.py line 75), the inverse of natToBytes. -/
def bytesToNat : List Nat → Nat
  | [] => 0
  | b :: rest => b + 256 * bytesToNat rest

/-- Membership test for a key, as the Python `in` operator on a decoded
mapping (codec/__init__.py lines 56, 58). -/
def mapHasKey (k : String) : ValueMap → Bool
  | ValueMap.nil => false
  | ValueMap.cons k0 _ tl => k0 == k || mapHasKey k tl

/-- Subscript access obj[k] on a decoded mapping. -/
def mapGet (k : String) : ValueMap → Option Value
  | ValueMap.nil => Option.none
  | ValueMap.cons k0 v tl => if k0 == k then some v else mapGet k tl

mutual
/-- encode (codec/__init__.py lines 47-52) as the msgpack default hook: a
datetime becomes the __datetime__ marker mapping (encode_datetime, lines
63-71), a generator becomes the __generator__ marker mapping
(encode_generator, lines 78-79), everything else is passed through;
msgpack.packb applies it at every depth to objects it cannot serialize
natively (codec/msgpack.py line 19). -/
def hookEncode : Value → Value
  | Value.datetime t =>
    Value.map (ValueMap.cons "__datetime__" (Value.bytes (natToBytes t)) ValueMap.nil)
  | Value.generator _ =>
    Value.map (ValueMap.cons "__generator__" Value.nil ValueMap.nil)
  | Value.arr items => Value.arr (hookEncodeSeq items)
  | Value.map entries => Value.map (hookEncodeMap entries)
  | v => v
def hookEncodeSeq : ValueSeq → ValueSeq
  | ValueSeq.nil => ValueSeq.nil
  | ValueSeq.cons v tl => ValueSeq.cons (hookEncode v) (hookEncodeSeq tl)
def hookEncodeMap : ValueMap → ValueMap
  | ValueMap.nil => ValueMap.nil
  | ValueMap.cons k v tl => ValueMap.cons k (hookEncode v) (hookEncodeMap tl)
end

/-- decode (codec/__init__.py lines 55-60) applied to one decoded mapping:
a __datetime__ key yields a datetime via temporenc.unpackb (which fails on
a non-bytes value, modelled as Option.none), else a __generator__ key
yields a fresh empty generator (decode_generator, lines 82-83, yields from
an empty tuple), else the mapping passes through unchanged. -/
def decodeMapHook (entries : ValueMap) : Option Value :=
  if mapHasKey "__datetime__" entries then
    match mapGet "__datetime__" entries with
    | some (Value.bytes b) => some (Value.datetime (bytesToNat b))
    | _ => Option.none
  else if mapHasKey "__generator__" entries then
    some (Value.generator ValueSeq.nil)
  else
    some (Value.map entries)

mutual
/-- The decode side of a codec: msgpack.unpackb with object_hook=decode
(codec/msgpack.py line 28) and json.loads with object_hook=decode
(codec/json.py line 26) apply decode to every mapping, innermost first. -/
def hookDecode : Value → Option Value
  | Value.arr items => (hookDecodeSeq items).map Value.arr
  | Value.map entries => (hookDecodeMap entries).bind decodeMapHook
  | v => some v
def hookDecodeSeq : ValueSeq → Option ValueSeq
  | ValueSeq.nil => some ValueSeq.nil
  | ValueSeq.cons v tl =>
    match hookDecode v, hookDecodeSeq tl with
    | some w, some ws => some (ValueSeq.cons w ws)
    | _, _ => Option.none
def hookDecodeMap : ValueMap → Option ValueMap
  | ValueMap.nil => some ValueMap.nil
  | ValueMap.cons k v tl =>
    match hookDecode v, hookDecodeMap tl with
    | some w, some ws => some (ValueMap.cons k w ws)
    | _, _ => Option.none
end

mutual
/-- json.dumps with default=encode (codec/json.py line 22): bytes are not
JSON serializable and the default hook returns them unchanged, so dumps
fails (TypeError, wrapped as EncodeError); a datetime becomes a marker
mapping whose value is bytes, which then fails the same way; a generator
becomes the serializable __generator__ marker. -/
def jsonEncode : Value → Option Value
  | Value.bytes _ => Option.none
  | Value.datetime _ => Option.none
  | Value.generator _ =>
    some (Value.map (ValueMap.cons "__generator__" Value.nil ValueMap.nil))
  | Value.arr items => (jsonEncodeSeq items).map Value.arr
  | Value.map entries => (jsonEncodeMap entries).map Value.map
  | v => some v
def jsonEncodeSeq : ValueSeq → Option ValueSeq
  | ValueSeq.nil => some ValueSeq.nil
  | ValueSeq.cons v tl =>
    match jsonEncode v, jsonEncodeSeq tl with
    | some w, some ws => some (ValueSeq.cons w ws)
    | _, _ => Option.none
def jsonEncodeMap : ValueMap → Option ValueMap
  | ValueMap.nil => some ValueMap.nil
  | ValueMap.cons k v tl =>
    match jsonEncode v, jsonEncodeMap tl with
    | some w, some ws => some (ValueMap.cons k w ws)
    | _, _ => Option.none
end

mutual
/-- A value with no generators and no mappings that collide with the two
reserved marker keys: exactly the values on which the decode hook inverts
the encode hook. -/
def wireSafe : Value → Bool
  | Value.generator _ => false
  | Value.arr items => wireSafeSeq items
  | Value.map entries =>
    !(mapHasKey "__datetime__" entries) && !(mapHasKey "__generator__" entries) &&
      wireSafeMap entries
  | _ => true
def wireSafeSeq : ValueSeq → Bool
  | ValueSeq.nil => true
  | ValueSeq.cons v tl => wireSafe v && wireSafeSeq tl
def wireSafeMap : ValueMap → Bool
  | ValueMap.nil => true
  | ValueMap.cons _ v tl => wireSafe v && wireSafeMap tl
end

mutual
/-- A value containing no bytes and no datetimes, the extra condition the
json codec needs to encode at all. -/
def jsonOk : Value → Bool
  | Value.bytes _ => false
  | Value.datetime _ => false
  | Value.generator items => jsonOkSeq items
  | Value.arr items => jsonOkSeq items
  | Value.map entries => jsonOkMap entries
  | _ => true
def jsonOkSeq : ValueSeq → Bool
  | ValueSeq.nil => true
  | ValueSeq.cons v tl => jsonOk v && jsonOkSeq tl
def jsonOkMap : ValueMap → Bool
  | ValueMap.nil => true
  | ValueMap.cons _ v tl => jsonOk v && jsonOkMap tl
end

/-! ## Protocol messages (src/snekrpc/protocol.py, lines 26-57) -/

/-- The tagged message union: CommandMessage, DataMessage, ErrorMessage,
StreamStartMessage, StreamEndMessage (protocol.py lines 35-57). -/
inductive Message where
  | command (serviceName commandName : String) (args : ValueSeq) (kwargs : ValueMap)
  | data (d : Value)
  | error (name message traceback : String)
  | streamStart
  | streamEnd
  deriving DecidableEq

/-- The builtin representation fixed by msgspec.Struct with tag=True and
array_like=True (protocol.py line 26): an array whose head is the class
name and whose tail is the fields in declaration order.  recv_msg rebuilds
the struct from exactly this shape via msgspec.convert with
Message.subtypes() (protocol.py line 152); send_msg hands the struct to the
codec to serialize in this representation (protocol.py line 168). -/
def messageToValue : Message → Value
  | Message.command s c a k =>
    Value.arr (ValueSeq.cons (Value.str "CommandMessage")
      (ValueSeq.cons (Value.str s) (ValueSeq.cons (Value.str c)
        (ValueSeq.cons (Value.arr a) (ValueSeq.cons (Value.map k) ValueSeq.nil)))))
  | Message.data d =>
    Value.arr (ValueSeq.cons (Value.str "DataMessage") (ValueSeq.cons d ValueSeq.nil))
  | Message.error n m t =>
    Value.arr (ValueSeq.cons (Value.str "ErrorMessage")
      (ValueSeq.cons (Value.str n) (ValueSeq.cons (Value.str m)
        (ValueSeq.cons (Value.str t) ValueSeq.nil))))
  | Message.streamStart =>
    Value.arr (ValueSeq.cons (Value.str "StreamStartMessage") ValueSeq.nil)
  | Message.streamEnd =>
    Value.arr (ValueSeq.cons (Value.str "StreamEndMessage") ValueSeq.nil)

/-- msgspec.convert of a decoded builtin value into the tagged union
(protocol.py line 152): dispatch on the tag and check the field shapes. -/
def valueToMessage : Value → Option Message
  | Value.arr (ValueSeq.cons (Value.str "CommandMessage")
      (ValueSeq.cons (Value.str s) (ValueSeq.cons (Value.str c)
        (ValueSeq.cons (Value.arr a) (ValueSeq.cons (Value.map k) ValueSeq.nil))))) =>
    some (Message.command s c a k)
  | Value.arr (ValueSeq.cons (Value.str "DataMessage") (ValueSeq.cons d ValueSeq.nil)) =>
    some (Message.data d)
  | Value.arr (ValueSeq.cons (Value.str "ErrorMessage")
      (ValueSeq.cons (Value.str n) (ValueSeq.cons (Value.str m)
        (ValueSeq.cons (Value.str t) ValueSeq.nil)))) =>
    some (Message.error n m t)
  | Value.arr (ValueSeq.cons (Value.str "StreamStartMessage") ValueSeq.nil) =>
    some Message.streamStart
  | Value.arr (ValueSeq.cons (Value.str "StreamEndMessage") ValueSeq.nil) =>
    some Message.streamEnd
  | _ => Option.none

/-- Encode then decode one message through the msgpack codec: the default
hook on the way in (codec/msgpack.py line 19), the object hook and
msgspec.convert on the way out (codec/msgpack.py line 28, protocol.py line
152).  The byte layer of the external msgpack library is a faithful
transport of this builtin representation and is not re-modelled. -/
def msgpackRoundtrip (m : Message) : Option Message :=
  (hookDecode (hookEncode (messageToValue m))).bind valueToMessage

/-- Encode then decode one message through the json codec (codec/json.py);
Option.none means json.dumps raised (EncodeError). -/
def jsonRoundtrip (m : Message) : Option Message :=
  ((jsonEncode (messageToValue m)).bind hookDecode).bind valueToMessage

/-! ## Client command send path (src/snekrpc/protocol.py, send_cmd) -/

/-- Errors shared by the protocol models (src/snekrpc/errors.py). -/
inductive PyError where
  /-- ParameterError (errors.py lines 54-55). -/
  | parameterError (msg : String)
  /-- TransportError (errors.py lines 10-11). -/
  | transportError
  /-- A Python AttributeError from referencing a missing module attribute. -/
  | attributeError (name : String)
  /-- ProtocolOpError with the offending opcode (errors.py lines 58-63). -/
  | protocolOpError (opcode : Nat)
  deriving DecidableEq

/-- inspect.isgenerator on a value. -/
def isGeneratorV : Value → Bool
  | Value.generator _ => true
  | _ => false

/-- Number of generator values among positional arguments. -/
def countGensSeq : ValueSeq → Nat
  | ValueSeq.nil => 0
  | ValueSeq.cons v tl => (if isGeneratorV v then 1 else 0) + countGensSeq tl

/-- Number of generator values among keyword arguments. -/
def countGensMap : ValueMap → Nat
  | ValueMap.nil => 0
  | ValueMap.cons _ v tl => (if isGeneratorV v then 1 else 0) + countGensMap tl

/-- The positional-argument scan of Protocol.send_cmd (protocol.py lines
219-224): remember the generator found; a second generator raises
ParameterError. -/
def scanStream : Option Value → ValueSeq → Except PyError (Option Value)
  | st, ValueSeq.nil => Except.ok st
  | st, ValueSeq.cons a tl =>
    if isGeneratorV a then
      match st with
      | some _ => Except.error (PyError.parameterError "only one stream param is possible")
      | Option.none => scanStream (some a) tl
    else scanStream st tl

/-- The keyword-argument scan of Protocol.send_cmd (protocol.py lines
225-230). -/
def scanStreamMap : Option Value → ValueMap → Except PyError (Option Value)
  | st, ValueMap.nil => Except.ok st
  | st, ValueMap.cons _ a tl =>
    if isGeneratorV a then
      match st with
      | some _ => Except.error (PyError.parameterError "only one stream param is possible")
      | Option.none => scanStreamMap (some a) tl
    else scanStreamMap st tl

/-- send_stream (protocol.py lines 278-283): StreamStart, one DataMessage
per item, StreamEnd. -/
def streamFramesData : ValueSeq → List Message
  | ValueSeq.nil => [Message.streamEnd]
  | ValueSeq.cons v tl => Message.data v :: streamFramesData tl

/-- Frames sent for the single stream argument after the CommandMessage
(protocol.py lines 237-238). -/
def streamFrames : Value → List Message
  | Value.generator items => Message.streamStart :: streamFramesData items
  | _ => []

/-- Protocol.send_cmd up to and including the argument stream (protocol.py
lines 206-238): both scans run before anything is written, so on
ParameterError the list of sent messages is empty; otherwise the
CommandMessage goes out first, then the stream frames if a generator
argument was present.  (The code then awaits the response; that part is
not needed here.) -/
def send_cmd (svc cmd : String) (args : ValueSeq) (kwargs : ValueMap) :
    List Message × Option PyError :=
  match scanStream Option.none args with
  | Except.error e => ([], some e)
  | Except.ok st =>
    match scanStreamMap st kwargs with
    | Except.error e => ([], some e)
    | Except.ok stream =>
      (Message.command svc cmd args kwargs ::
        (match stream with
         | some g => streamFrames g
         | Option.none => []), Option.none)

/-- Number of generators a scan accumulator stands for. -/
def stCount : Option Value → Nat
  | some _ => 1
  | Option.none => 0

/-- recv_msg closure test (protocol.py lines 144-148): res_handshake passes
any frame that is not the single handshake byte through unchanged (lines
128-130), and an empty payload is reported as None, meaning peer closed. -/
def recvMsgClosed (payload : List Nat) : Bool := payload.isEmpty

/-! ## Client handshake (src/snekrpc/protocol.py, req_handshake) -/

/-- Protocol.req_handshake (protocol.py lines 104-124) on the client side,
applied to the framed payload received in reply to the 0x00 request.  When
the codec is already set the handshake is skipped.  An empty payload
raises TransportError(ReceiveInterrupted).  When the first byte is not
0x00 the source executes `raise errors.HandshakeError()`, but
snekrpc.errors (src/snekrpc/errors.py) defines no HandshakeError, so
evaluating that attribute raises AttributeError instead of the
ProtocolOpError the spec names; otherwise the remainder of the payload is
installed as the codec name (kept as raw bytes here: the UTF-8 decode is
the external str.decode).  Returns the installed codec name bytes. -/
def req_handshake (codecAlreadySet : Bool) (data : List Nat) :
    Except PyError (Option (List Nat)) :=
  if codecAlreadySet then Except.ok Option.none
  else if data.isEmpty then Except.error PyError.transportError
  else if data.take 1 = [0] then Except.ok (some (data.drop 1))
  else Except.error (PyError.attributeError "HandshakeError")

/-! ## Service registration (src/snekrpc/interface.py, add_service) -/

/-- A service instance as stored by the server: its registered NAME and an
identity distinguishing instances. -/
structure ServiceInst where
  sname : String
  ident : Nat
  deriving DecidableEq

/-- First-match association lookup, the model of Python dict subscript on
an association list with distinct keys. -/
def alookup {α : Type} (k : String) : List (String × α) → Option α
  | [] => Option.none
  | (k0, v) :: rest => if k0 = k then some v else alookup k rest

/-- Python dict item assignment d[k] = v: an existing key keeps its
position and gets the new value, otherwise the pair is appended. -/
def dictSet (k : String) (v : ServiceInst) :
    List (String × ServiceInst) → List (String × ServiceInst)
  | [] => [(k, v)]
  | (k0, v0) :: rest =>
    if k0 = k then (k0, v) :: rest else (k0, v0) :: dictSet k v rest

/-- Server.add_service (interface.py lines 127-137): instantiate the
service, pick the name (the alias when given, else the service NAME), and
assign it into the _services dict.  The body performs no uniqueness check
and raises no error. -/
def add_service (services : List (String × ServiceInst)) (svc : ServiceInst)
    (alias0 : Option String) : List (String × ServiceInst) :=
  dictSet (alias0.getD svc.sname) svc services

/-! ## Client proxy attribute lookup (src/snekrpc/service/__init__.py) -/

/-- A command signature spec as cached by the proxy. -/
structure CommandSpec where
  cname : String
  isGen : Bool
  deriving DecidableEq

/-- The command_metadata argument of ServiceProxy.__init__
(service/__init__.py lines 94-122): True loads the SignatureSpecs from the
remote _meta service, False loads nothing, any other value is used as the
specs directly. -/
inductive CmdMetaArg where
  | tru
  | fls
  | given (specs : List CommandSpec)
  deriving DecidableEq

/-- A callable produced by wrap_call (service/__init__.py lines 138-191):
it remembers the command name and the spec it was decoded from, if any. -/
structure BoundCommand where
  cmdName : String
  spec : Option CommandSpec
  deriving DecidableEq

/-- The _commands cache built by ServiceProxy.__init__ (service/__init__.py
lines 108-122); remoteSpecs stands for what _meta.service returns when
command_metadata is True. -/
def proxyCommands (meta : CmdMetaArg) (remoteSpecs : List CommandSpec) :
    List (String × BoundCommand) :=
  match meta with
  | CmdMetaArg.fls => []
  | CmdMetaArg.tru => remoteSpecs.map fun c => (c.cname, ⟨c.cname, some c⟩)
  | CmdMetaArg.given specs => specs.map fun c => (c.cname, ⟨c.cname, some c⟩)

/-- ServiceProxy.__getattr__ (service/__init__.py lines 124-131): with a
non-empty (truthy) cache, a hit returns the cached wrapper and a miss
raises AttributeError; with an empty cache every name is wrapped lazily
via wrap_call with no spec. -/
def proxyGetattr (commands : List (String × BoundCommand)) (cmdName : String) :
    Except PyError BoundCommand :=
  if commands.isEmpty then Except.ok ⟨cmdName, Option.none⟩
  else
    match alookup cmdName commands with
    | some w => Except.ok w
    | Option.none => Except.error (PyError.attributeError cmdName)

/-! ## Retry policy (src/snekrpc/utils/retry.py, call_gen) -/

/-- How one invocation of the wrapped callable ends after yielding its
values: normally, with a retry-eligible error (isinstance of self.errors;
the service proxy passes errors=[TransportError], service/__init__.py
lines 110-111), or with an ineligible one. -/
inductive AttemptEnd where
  | ok
  | errEligible
  | errIneligible
  deriving DecidableEq

/-- One invocation of the wrapped generator callable: the values it
yields to the consumer, then how it ends. -/
structure Attempt where
  values : List Nat
  outcome : AttemptEnd
  deriving DecidableEq

/-- How the retry-wrapping generator ends for the consumer. -/
inductive GenOutcome where
  | finished
  | raisedEligible
  | raisedIneligible
  | pending
  deriving DecidableEq

/-- Retry.call_gen (utils/retry.py lines 52-66) over the script of
attempts: while True, invoke the callable and yield every value through
to the consumer; on normal exhaustion return; on an exception re-raise
it unless it is eligible and retries remain (retries >= count >= 0 means
exhausted; a negative count never exhausts), else sleep, log, bump the
counter and restart the callable from scratch.  Returns every value
delivered to the consumer, in order, and how the loop ends; pending
means the script ran out where the loop would have invoked the callable
again. -/
def call_gen (count : Int) : Int → List Attempt → List Nat × GenOutcome
  | _, [] => ([], GenOutcome.pending)
  | retries, a :: rest =>
    match a.outcome with
    | AttemptEnd.ok => (a.values, GenOutcome.finished)
    | AttemptEnd.errIneligible => (a.values, GenOutcome.raisedIneligible)
    | AttemptEnd.errEligible =>
      if retries ≥ count ∧ count ≥ 0 then (a.values, GenOutcome.raisedEligible)
      else
        (a.values ++ (call_gen count (retries + 1) rest).1,
          (call_gen count (retries + 1) rest).2)

/-- retry_wrap_gen (service/__init__.py lines 178-179): yield from
Retry.call_gen applied to call_stream, the retry counter starting at 0. -/
def retry_wrap_gen (count : Int) (attempts : List Attempt) : List Nat × GenOutcome :=
  call_gen count 0 attempts

/-- The attempts call_gen consumes: the first one, and after an eligible
error with retries remaining, the consumed attempts of the rest. -/
def retryConsumed (count : Int) : Int → List Attempt → List Attempt
  | _, [] => []
  | retries, a :: rest =>
    match a.outcome with
    | AttemptEnd.ok => [a]
    | AttemptEnd.errIneligible => [a]
    | AttemptEnd.errEligible =>
      if retries ≥ count ∧ count ≥ 0 then [a]
      else a :: retryConsumed count (retries + 1) rest

/-! ## Command signature encoding (src/snekrpc/utils/function.py)

func_to_dict serializes a command callable into a plain dict; dict_to_func
generates a callable back from such a dict.  A Python value that can occur
as a parameter default is modelled by PyVal (repr of these evaluates back
to the same value, so the default embedded in the generated source
round-trips).  A parameter entry dict is modelled by the keys the source
reads and writes: name, kind, default, hint, doc, hide, where an Option
records whether the key is present (the hide key is present exactly when
true).  The free-form decorator metadata is carried by the same keys. -/

inductive PyVal where
  | none
  | bool (b : Bool)
  | int (n : Int)
  | str (s : String)
  deriving DecidableEq

/-- type(default).__name__ for the modelled default values
(function.py line 99). -/
def pyTypeName : PyVal → String
  | PyVal.none => "NoneType"
  | PyVal.bool _ => "bool"
  | PyVal.int _ => "int"
  | PyVal.str _ => "str"

/-- One element of data["params"]: the dict func_to_dict appends
(function.py lines 93-107). -/
structure ParamEntry where
  name : String
  kind : Nat
  default : Option PyVal
  hint : Option String
  doc : Option String
  hide : Bool
  deriving DecidableEq

/-- One value of _meta["params"]: the entry dict without its name key, as
stored by dict_to_func (line 155), or the metadata attached by the command
and param decorators (lines 23-66), which never set kind or default. -/
structure StoredParam where
  kind : Option Nat
  default : Option PyVal
  hint : Option String
  doc : Option String
  hide : Bool
  deriving DecidableEq

/-- The dict produced by func_to_dict: name, doc, params, stream, isgen
(the meta passthrough key is vacuous for decorator-produced functions, see
func_to_dict below). -/
structure FuncDict where
  name : String
  doc : Option String
  params : List ParamEntry
  stream : Option String
  isgen : Bool
  deriving DecidableEq

/-- One parameter of a Python function signature as inspect reports it:
name, kind (0 positional-only, 1 positional-or-keyword, 2 var-positional,
3 keyword-only, 4 var-keyword) and default. -/
structure SigParam where
  name : String
  kind : Nat
  default : Option PyVal
  deriving DecidableEq

/-- A Python command callable as far as func_to_dict and dict_to_func see
it: dunder name and doc, the inspect signature, and the _meta attribute
with its params mapping and optional stream name. -/
structure FuncModel where
  name : String
  doc : Option String
  sig : List SigParam
  metaParams : List (String × StoredParam)
  metaStream : Option String
  isgen : Bool
  deriving DecidableEq

/-- entry.update(stored) (function.py line 101): every key present in the
stored metadata overwrites the entry key. -/
def updateEntry (e : ParamEntry) (st : StoredParam) : ParamEntry :=
  ⟨e.name,
   match st.kind with | some k => k | Option.none => e.kind,
   match st.default with | some d => some d | Option.none => e.default,
   match st.hint with | some h => some h | Option.none => e.hint,
   match st.doc with | some d => some d | Option.none => e.doc,
   e.hide || st.hide⟩

/-- The entry func_to_dict builds for one signature parameter (function.py
lines 92-102): name and kind from the signature; a present default is
recorded and (the local variable hint read at line 95 is always None,
since the entry was just created) a non-None default records its type
name as the hint; then the stored metadata for this name, popped from
cmd_params, overwrites these keys. -/
def sigEntry (st0 : Option StoredParam) (p : SigParam) : ParamEntry :=
  let base : ParamEntry :=
    ⟨p.name, p.kind, p.default,
     match p.default with
     | some d => if d = PyVal.none then Option.none else some (pyTypeName d)
     | Option.none => Option.none,
     Option.none, false⟩
  match st0 with
  | some st => updateEntry base st
  | Option.none => base

/-- func_to_dict (function.py lines 81-119) on the model of a decorated
method (remove_self already applied, as at the call sites).  Signature
parameters come first, each merged with its stored decorator metadata;
the stored parameters that are not in the signature follow, with kind
defaulting to KEYWORD_ONLY = 3 (line 106).  Parameter names are distinct
as in any real signature, so popping from cmd_params is modelled by
lookup and a final filter.  The decorators only ever set the params and
stream keys of _meta, so the meta passthrough branch (lines 117-118) is
vacuous and not modelled. -/
def func_to_dict (f : FuncModel) : FuncDict :=
  ⟨f.name, f.doc,
   (f.sig.map fun p => sigEntry (alookup p.name f.metaParams) p) ++
     ((f.metaParams.filter fun kv => !(f.sig.any fun p => p.name == kv.1)).map
       fun kv =>
         ⟨kv.1, match kv.2.kind with | some k => k | Option.none => 3,
          kv.2.default, kv.2.hint, kv.2.doc, kv.2.hide⟩),
   f.metaStream, f.isgen⟩

/-- Python keywords (keyword.kwlist), tested by is_identifier. -/
def pythonKeywords : List String :=
  ["False", "None", "True", "and", "as", "assert", "async", "await",
   "break", "class", "continue", "def", "del", "elif", "else", "except",
   "finally", "for", "from", "global", "if", "import", "in", "is",
   "lambda", "nonlocal", "not", "or", "pass", "raise", "return", "try",
   "while", "with", "yield"]

/-- A character the name regex and str.isidentifier accept (ASCII model). -/
def identChar (c : Char) : Bool :=
  c.isAlpha || c.isDigit || c == Char.ofNat 95

/-- is_identifier (function.py lines 19-20): nonempty, matches the name
pattern, does not start with a digit, and is not a keyword. -/
def is_identifier (s : String) : Bool :=
  match s.toList with
  | [] => false
  | c0 :: rest =>
    identChar c0 && !c0.isDigit && rest.all identChar &&
      !(pythonKeywords.contains s)

/-- The inspect signature of the function generated by exec (function.py
lines 159-171): a plain name is POSITIONAL_OR_KEYWORD unless it follows a
star parameter, which makes it KEYWORD_ONLY; star and double-star
parameters keep their kinds; the repr of a recorded default written into
the source evaluates back to the same value. -/
def genSig (seenStar : Bool) : List ParamEntry → List SigParam
  | [] => []
  | e :: rest =>
    if e.kind == 2 then ⟨e.name, 2, e.default⟩ :: genSig true rest
    else if e.kind == 4 then ⟨e.name, 4, e.default⟩ :: genSig seenStar rest
    else ⟨e.name, if seenStar then 3 else 1, e.default⟩ :: genSig seenStar rest

/-- Acceptance of the generated def source by the Python parser
(function.py line 171, exec): a default on a star or double-star
parameter, a plain parameter without default after one with a default
before any star, a second star parameter, or anything after a double-star
parameter is a SyntaxError. -/
def validDefGo (seenStar seenDefault seenDStar : Bool) : List ParamEntry → Bool
  | [] => true
  | e :: rest =>
    if seenDStar then false
    else if e.kind == 2 then
      !seenStar && e.default.isNone && validDefGo true seenDefault false rest
    else if e.kind == 4 then
      e.default.isNone && validDefGo seenStar seenDefault true rest
    else
      if seenStar then validDefGo seenStar seenDefault false rest
      else if e.default.isSome then validDefGo false true false rest
      else !seenDefault && validDefGo false false false rest

/-- Distinctness of the generated parameter names (a duplicate is a
SyntaxError at exec). -/
def distinctNames : List String → Bool
  | [] => true
  | s :: rest => rest.all (fun t => !(t == s)) && distinctNames rest

/-- The stored form of a kept entry: params[param.pop("name")] = param
(function.py line 155) keeps every key of the entry except the name. -/
def entryToStored (e : ParamEntry) : StoredParam :=
  ⟨some e.kind, e.default, e.hint, e.doc, e.hide⟩

/-- dict_to_func (function.py lines 122-176): validate every parameter
name (ValueError, line 131) and kind (KeyError from the literal kind
mapping for anything outside 0..4, lines 132-138), skip the KEYWORD_ONLY
parameters entirely (lines 140-141), generate a function over the
remaining ones (a SyntaxError from exec when the generated source is not
a valid def is modelled as failure too), attach doc, and store the
remaining entry dicts minus their names as _meta params; isgen selects
the generator template. -/
def dict_to_func (d : FuncDict) : Option FuncModel :=
  if d.params.all (fun e => is_identifier e.name && e.kind ≤ 4) then
    let kept := d.params.filter fun e => !(e.kind == 3)
    if is_identifier d.name && distinctNames (kept.map ParamEntry.name) &&
        validDefGo false false false kept then
      some ⟨d.name, d.doc, genSig false kept,
        kept.map fun e => (e.name, entryToStored e),
        d.stream, d.isgen⟩
    else Option.none
  else Option.none

/-- Kinds and defaults of a real Python signature without keyword-only
parameters: kinds from 0, 1, 2, 4 in nondecreasing stages with at most
one star and one double-star parameter, no default on star parameters,
and defaults only on a suffix of the plain parameters. -/
def pySigValid (stage : Nat) (seenDefault : Bool) : List SigParam → Bool
  | [] => true
  | p :: rest =>
    if p.kind == 0 || p.kind == 1 then
      decide (stage ≤ p.kind) &&
        (if p.default.isSome then pySigValid p.kind true rest
         else !seenDefault && pySigValid p.kind false rest)
    else if p.kind == 2 then
      decide (stage ≤ 2) && p.default.isNone && pySigValid 3 seenDefault rest
    else if p.kind == 4 then
      decide (stage ≤ 4) && p.default.isNone && pySigValid 5 seenDefault rest
    else false

/-- A decorated command with no keyword-only parameters, the scope of the
amended round-trip claim: a valid function name, a valid signature with
distinct identifier names, and decorator metadata that refers only to
signature parameters and carries no kind or default keys (the command and
param decorators never set those). -/
def wellFormedFunc (f : FuncModel) : Bool :=
  is_identifier f.name &&
  distinctNames (f.sig.map SigParam.name) &&
  (f.sig.all fun p => is_identifier p.name) &&
  pySigValid 0 false f.sig &&
  (f.metaParams.all fun kv =>
    kv.2.kind.isNone && kv.2.default.isNone &&
      (f.sig.any fun p => p.name == kv.1))

end Snekrpc

namespace Snekrpc

/-! ## Framing lemmas -/

theorem unpackBE4_packBE4 (n : Nat) (h : n < 2 ^ 32) : unpackBE4 (packBE4 n) = n := by
  simp only [packBE4, unpackBE4]
  omega

theorem packBE4_length (n : Nat) : (packBE4 n).length = 4 := rfl

theorem normChunk_pos (c0 : Option Nat) : 1 ≤ normChunk c0 := by
  match c0 with
  | Option.none => simp [normChunk, CHUNK_SIZE]
  | some 0 => simp [normChunk, CHUNK_SIZE]
  | some (c + 1) => simp [normChunk]

theorem recvsizeGo_of_le (c : Nat) (hc : 1 ≤ c) :
    ∀ (size : Nat) (s : List Nat), size ≤ s.length →
      recvsizeGo c size s = some (s.take size, s.drop size) := by
  intro size
  induction size using Nat.strong_induction_on with
  | _ size ih =>
    match size with
    | 0 => intro s _; rw [recvsizeGo.eq_def]; simp
    | size + 1 =>
      intro s hs
      have hm1 : 1 ≤ min (size + 1) c := le_min (by omega) hc
      have hm2 : min (size + 1) c ≤ size + 1 := min_le_left _ _
      have hlen : (s.take (min (size + 1) c)).length = min (size + 1) c := by
        rw [List.length_take]
        omega
      have hne : ¬ ((s.take (min (size + 1) c)).length = 0) := by omega
      rw [recvsizeGo.eq_def]
      simp only []
      rw [dif_neg hne]
      have hrec := ih (size + 1 - (s.take (min (size + 1) c)).length)
        (by omega) (s.drop (min (size + 1) c))
        (by rw [List.length_drop]; omega)
      rw [hrec]
      have hsum : min (size + 1) c + (size + 1 - (s.take (min (size + 1) c)).length)
          = size + 1 := by omega
      have e1 := (List.take_add s (min (size + 1) c)
        (size + 1 - (s.take (min (size + 1) c)).length)).symm
      rw [hsum] at e1
      have e2 := List.drop_drop (size + 1 - (s.take (min (size + 1) c)).length)
        (min (size + 1) c) s
      rw [hsum] at e2
      have hmin2 : (size + 1) ⊓ (c ⊓ s.length) = (size + 1) ⊓ c := by omega
      rw [hlen] at e1 e2
      simp [hlen, hmin2, hsum, e1, e2]

theorem recvsizeGo_of_gt (c : Nat) (hc : 1 ≤ c) :
    ∀ (size : Nat) (s : List Nat), s.length < size →
      recvsizeGo c size s = Option.none := by
  intro size
  induction size using Nat.strong_induction_on with
  | _ size ih =>
    match size with
    | 0 => intro s hs; omega
    | size + 1 =>
      intro s hs
      have hm1 : 1 ≤ min (size + 1) c := le_min (by omega) hc
      have hlen : (s.take (min (size + 1) c)).length = min (min (size + 1) c) s.length := by
        rw [List.length_take]
      rw [recvsizeGo.eq_def]
      simp only []
      by_cases hz : (s.take (min (size + 1) c)).length = 0
      · rw [dif_pos hz]
      · rw [dif_neg hz]
        have hrec := ih (size + 1 - (s.take (min (size + 1) c)).length)
          (by omega) (s.drop (min (size + 1) c))
          (by rw [List.length_drop]; omega)
        rw [hrec]

theorem recvsize_of_le (c0 : Option Nat) (size : Nat) (s : List Nat)
    (h : size ≤ s.length) :
    recvsize c0 size s = some (s.take size, s.drop size) := by
  match size with
  | 0 => rw [recvsize, recvsizeGo.eq_def]; simp
  | n + 1 =>
    exact recvsizeGo_of_le _ (le_min (by omega) (normChunk_pos c0)) _ s h

theorem recvsize_of_gt (c0 : Option Nat) (size : Nat) (s : List Nat)
    (h : s.length < size) :
    recvsize c0 size s = Option.none := by
  match size with
  | 0 => omega
  | n + 1 =>
    exact recvsizeGo_of_gt _ (le_min (by omega) (normChunk_pos c0)) _ s h

/-- A complete frame, followed by any further bytes, is received exactly:
the 4-byte prefix is consumed, then exactly the announced number of payload
bytes, whatever the configured chunk size. -/
theorem recv_frame (c0 : Option Nat) (data rest : List Nat)
    (h : data.length < 2 ^ 32) :
    recv c0 (packBE4 data.length ++ (data ++ rest)) = (data, rest) := by
  unfold recv recviter
  have h4 : (4 : Nat) ≤ (packBE4 data.length ++ (data ++ rest)).length := by
    simp [packBE4]
  rw [recvsize_of_le _ _ _ h4]
  dsimp only
  have e1 : (packBE4 data.length ++ (data ++ rest)).take 4 = packBE4 data.length := by
    have := List.take_left (packBE4 data.length) (data ++ rest)
    rwa [packBE4_length] at this
  have e2 : (packBE4 data.length ++ (data ++ rest)).drop 4 = data ++ rest := by
    have := List.drop_left (packBE4 data.length) (data ++ rest)
    rwa [packBE4_length] at this
  rw [e1, e2, unpackBE4_packBE4 _ h]
  have hlen2 : data.length ≤ (data ++ rest).length := by
    simp
  rw [recvsize_of_le _ _ _ hlen2]
  dsimp only
  rw [List.take_left, List.drop_left]

/-- A stream that ends before a complete frame has been transferred makes
recv surface the empty byte string (ReceiveInterrupted caught), never a
partial payload. -/
theorem recv_short (c0 : Option Nat) (s : List Nat)
    (h : s.length < 4 + unpackBE4 (s.take 4)) :
    (recv c0 s).1 = [] := by
  unfold recv recviter
  by_cases h4 : (4 : Nat) ≤ s.length
  · rw [recvsize_of_le _ _ _ h4]
    dsimp only
    have hgt : (s.drop 4).length < unpackBE4 (s.take 4) := by
      rw [List.length_drop]; omega
    rw [recvsize_of_gt _ _ _ hgt]
  · rw [recvsize_of_gt _ _ _ (by omega)]

/-! ## Codec hook lemmas -/

theorem bytesToNat_natToBytes : ∀ t : Nat, bytesToNat (natToBytes t) = t := by
  intro t
  induction t using Nat.strong_induction_on with
  | _ t ih =>
    match t with
    | 0 => rw [natToBytes.eq_def]; rfl
    | t + 1 =>
      rw [natToBytes.eq_def]
      simp only [bytesToNat]
      rw [ih ((t + 1) / 256) (Nat.div_lt_self (by omega) (by omega))]
      omega

mutual
theorem hookDecode_hookEncode (v : Value) (h : wireSafe v = true) :
    hookDecode (hookEncode v) = some v := by
  match v with
  | Value.nil => rfl
  | Value.bool b => rfl
  | Value.int n => rfl
  | Value.str s => rfl
  | Value.bytes b => rfl
  | Value.datetime t =>
    simp [hookEncode, hookDecode, hookDecodeMap, decodeMapHook, mapHasKey, mapGet,
      bytesToNat_natToBytes]
  | Value.generator items => simp [wireSafe] at h
  | Value.arr items =>
    have hs := hookDecodeSeq_hookEncodeSeq items (by simpa [wireSafe] using h)
    simp [hookEncode, hookDecode, hs]
  | Value.map entries =>
    simp only [wireSafe, Bool.and_eq_true, Bool.not_eq_true'] at h
    have hm := hookDecodeMap_hookEncodeMap entries h.2
    simp [hookEncode, hookDecode, hm, decodeMapHook, h.1.1, h.1.2]
theorem hookDecodeSeq_hookEncodeSeq (items : ValueSeq) (h : wireSafeSeq items = true) :
    hookDecodeSeq (hookEncodeSeq items) = some items := by
  match items with
  | ValueSeq.nil => rfl
  | ValueSeq.cons v tl =>
    simp only [wireSafeSeq, Bool.and_eq_true] at h
    have h1 := hookDecode_hookEncode v h.1
    have h2 := hookDecodeSeq_hookEncodeSeq tl h.2
    simp [hookEncodeSeq, hookDecodeSeq, h1, h2]
theorem hookDecodeMap_hookEncodeMap (entries : ValueMap) (h : wireSafeMap entries = true) :
    hookDecodeMap (hookEncodeMap entries) = some entries := by
  match entries with
  | ValueMap.nil => rfl
  | ValueMap.cons k v tl =>
    simp only [wireSafeMap, Bool.and_eq_true] at h
    have h1 := hookDecode_hookEncode v h.1
    have h2 := hookDecodeMap_hookEncodeMap tl h.2
    simp [hookEncodeMap, hookDecodeMap, h1, h2]
end

mutual
theorem hookEncode_of_jsonOk (v : Value) (hw : wireSafe v = true) (hj : jsonOk v = true) :
    hookEncode v = v := by
  match v with
  | Value.nil => rfl
  | Value.bool b => rfl
  | Value.int n => rfl
  | Value.str s => rfl
  | Value.bytes b => simp [jsonOk] at hj
  | Value.datetime t => simp [jsonOk] at hj
  | Value.generator items => simp [wireSafe] at hw
  | Value.arr items =>
    have hs := hookEncodeSeq_of_jsonOk items (by simpa [wireSafe] using hw)
      (by simpa [jsonOk] using hj)
    simp [hookEncode, hs]
  | Value.map entries =>
    simp only [wireSafe, Bool.and_eq_true] at hw
    have hm := hookEncodeMap_of_jsonOk entries hw.2 (by simpa [jsonOk] using hj)
    simp [hookEncode, hm]
theorem hookEncodeSeq_of_jsonOk (items : ValueSeq) (hw : wireSafeSeq items = true)
    (hj : jsonOkSeq items = true) : hookEncodeSeq items = items := by
  match items with
  | ValueSeq.nil => rfl
  | ValueSeq.cons v tl =>
    simp only [wireSafeSeq, Bool.and_eq_true] at hw
    simp only [jsonOkSeq, Bool.and_eq_true] at hj
    simp [hookEncodeSeq, hookEncode_of_jsonOk v hw.1 hj.1,
      hookEncodeSeq_of_jsonOk tl hw.2 hj.2]
theorem hookEncodeMap_of_jsonOk (entries : ValueMap) (hw : wireSafeMap entries = true)
    (hj : jsonOkMap entries = true) : hookEncodeMap entries = entries := by
  match entries with
  | ValueMap.nil => rfl
  | ValueMap.cons k v tl =>
    simp only [wireSafeMap, Bool.and_eq_true] at hw
    simp only [jsonOkMap, Bool.and_eq_true] at hj
    simp [hookEncodeMap, hookEncode_of_jsonOk v hw.1 hj.1,
      hookEncodeMap_of_jsonOk tl hw.2 hj.2]
end

mutual
theorem jsonEncode_of_jsonOk (v : Value) (hw : wireSafe v = true) (hj : jsonOk v = true) :
    jsonEncode v = some v := by
  match v with
  | Value.nil => rfl
  | Value.bool b => rfl
  | Value.int n => rfl
  | Value.str s => rfl
  | Value.bytes b => simp [jsonOk] at hj
  | Value.datetime t => simp [jsonOk] at hj
  | Value.generator items => simp [wireSafe] at hw
  | Value.arr items =>
    have hs := jsonEncodeSeq_of_jsonOk items (by simpa [wireSafe] using hw)
      (by simpa [jsonOk] using hj)
    simp [jsonEncode, hs]
  | Value.map entries =>
    simp only [wireSafe, Bool.and_eq_true] at hw
    have hm := jsonEncodeMap_of_jsonOk entries hw.2 (by simpa [jsonOk] using hj)
    simp [jsonEncode, hm]
theorem jsonEncodeSeq_of_jsonOk (items : ValueSeq) (hw : wireSafeSeq items = true)
    (hj : jsonOkSeq items = true) : jsonEncodeSeq items = some items := by
  match items with
  | ValueSeq.nil => rfl
  | ValueSeq.cons v tl =>
    simp only [wireSafeSeq, Bool.and_eq_true] at hw
    simp only [jsonOkSeq, Bool.and_eq_true] at hj
    simp [jsonEncodeSeq, jsonEncode_of_jsonOk v hw.1 hj.1,
      jsonEncodeSeq_of_jsonOk tl hw.2 hj.2]
theorem jsonEncodeMap_of_jsonOk (entries : ValueMap) (hw : wireSafeMap entries = true)
    (hj : jsonOkMap entries = true) : jsonEncodeMap entries = some entries := by
  match entries with
  | ValueMap.nil => rfl
  | ValueMap.cons k v tl =>
    simp only [wireSafeMap, Bool.and_eq_true] at hw
    simp only [jsonOkMap, Bool.and_eq_true] at hj
    simp [jsonEncodeMap, jsonEncode_of_jsonOk v hw.1 hj.1,
      jsonEncodeMap_of_jsonOk tl hw.2 hj.2]
end

theorem valueToMessage_messageToValue (m : Message) :
    valueToMessage (messageToValue m) = some m := by
  cases m <;> rfl

/-! ## send_cmd scan lemmas -/

theorem scanStream_err : ∀ (args : ValueSeq) (st : Option Value),
    2 ≤ countGensSeq args + stCount st →
    scanStream st args =
      Except.error (PyError.parameterError "only one stream param is possible") := by
  intro args
  match args with
  | ValueSeq.nil => intro st h; cases st <;> simp [countGensSeq, stCount] at h
  | ValueSeq.cons v tl =>
    intro st h
    by_cases hg : isGeneratorV v = true
    · cases st with
      | some g => simp [scanStream, hg]
      | none =>
        simp only [scanStream, hg, if_true]
        apply scanStream_err tl
        simp [countGensSeq, hg, stCount] at h ⊢
        omega
    · simp only [scanStream, hg, if_false]
      apply scanStream_err tl
      simp [countGensSeq, hg, stCount] at h ⊢
      omega

theorem scanStream_ok : ∀ (args : ValueSeq) (st : Option Value),
    countGensSeq args + stCount st ≤ 1 →
    ∃ st2, scanStream st args = Except.ok st2 ∧
      stCount st2 = countGensSeq args + stCount st := by
  intro args
  match args with
  | ValueSeq.nil => intro st h; exact ⟨st, rfl, by simp [countGensSeq]⟩
  | ValueSeq.cons v tl =>
    intro st h
    by_cases hg : isGeneratorV v = true
    · cases st with
      | some g => simp [countGensSeq, hg, stCount] at h
      | none =>
        simp only [scanStream, hg, if_true]
        have := scanStream_ok tl (some v)
          (by simp [countGensSeq, hg, stCount] at h ⊢; omega)
        obtain ⟨st2, h1, h2⟩ := this
        refine ⟨st2, h1, ?_⟩
        simp [countGensSeq, hg, stCount] at h2 ⊢
        omega
    · simp only [scanStream, hg, if_false]
      have := scanStream_ok tl st
        (by simp [countGensSeq, hg] at h ⊢; omega)
      obtain ⟨st2, h1, h2⟩ := this
      refine ⟨st2, h1, ?_⟩
      simp [countGensSeq, hg] at h2 ⊢
      omega

theorem scanStreamMap_err : ∀ (kwargs : ValueMap) (st : Option Value),
    2 ≤ countGensMap kwargs + stCount st →
    scanStreamMap st kwargs =
      Except.error (PyError.parameterError "only one stream param is possible") := by
  intro kwargs
  match kwargs with
  | ValueMap.nil => intro st h; cases st <;> simp [countGensMap, stCount] at h
  | ValueMap.cons k v tl =>
    intro st h
    by_cases hg : isGeneratorV v = true
    · cases st with
      | some g => simp [scanStreamMap, hg]
      | none =>
        simp only [scanStreamMap, hg, if_true]
        apply scanStreamMap_err tl
        simp [countGensMap, hg, stCount] at h ⊢
        omega
    · simp only [scanStreamMap, hg, if_false]
      apply scanStreamMap_err tl
      simp [countGensMap, hg, stCount] at h ⊢
      omega

theorem scanStreamMap_ok : ∀ (kwargs : ValueMap) (st : Option Value),
    countGensMap kwargs + stCount st ≤ 1 →
    ∃ st2, scanStreamMap st kwargs = Except.ok st2 ∧
      stCount st2 = countGensMap kwargs + stCount st := by
  intro kwargs
  match kwargs with
  | ValueMap.nil => intro st h; exact ⟨st, rfl, by simp [countGensMap]⟩
  | ValueMap.cons k v tl =>
    intro st h
    by_cases hg : isGeneratorV v = true
    · cases st with
      | some g => simp [countGensMap, hg, stCount] at h
      | none =>
        simp only [scanStreamMap, hg, if_true]
        have := scanStreamMap_ok tl (some v)
          (by simp [countGensMap, hg, stCount] at h ⊢; omega)
        obtain ⟨st2, h1, h2⟩ := this
        refine ⟨st2, h1, ?_⟩
        simp [countGensMap, hg, stCount] at h2 ⊢
        omega
    · simp only [scanStreamMap, hg, if_false]
      have := scanStreamMap_ok tl st
        (by simp [countGensMap, hg] at h ⊢; omega)
      obtain ⟨st2, h1, h2⟩ := this
      refine ⟨st2, h1, ?_⟩
      simp [countGensMap, hg] at h2 ⊢
      omega


/-! ## Claim theorems: framing, handler loop, codec roundtrip, send_cmd -/

/-- C5: every payload is framed as a 4-byte big-endian length followed by
exactly the payload bytes; the receiver reads the 4-byte prefix, decodes L,
and returns exactly L bytes regardless of the configured chunk size,
leaving the rest of the stream unread; when the peer closes before the
prefix or the L bytes are complete, recv surfaces the empty byte string
rather than partial data. -/
theorem C5_length_prefixed_framing (data rest : List Nat) (c0 : Option Nat)
    (h : data.length < 2 ^ 32) :
    send data = some (packBE4 data.length ++ data) ∧
    recv c0 (packBE4 data.length ++ (data ++ rest)) = (data, rest) ∧
    (∀ s : List Nat, s.length < 4 + unpackBE4 (s.take 4) → (recv c0 s).1 = []) := by
  refine ⟨?_, recv_frame c0 data rest h, fun s hs => recv_short c0 s hs⟩
  simp only [send]
  rw [if_pos h]

theorem C5_witness :
    send [1, 2, 3] = some [0, 0, 0, 3, 1, 2, 3] ∧
    recv (some 2) [0, 0, 0, 3, 1, 2, 3, 9, 9] = ([1, 2, 3], [9, 9]) ∧
    (recv (some 2) [0, 0, 0, 5, 1]).1 = [] := by
  have h := C5_length_prefixed_framing [1, 2, 3] [9, 9] (some 2) (by decide)
  exact ⟨h.1, h.2.1, h.2.2 [0, 0, 0, 5, 1] (by decide)⟩

/-- C2: the claim states that a TransportError terminates the handler loop
for the connection and nothing further is read or dispatched.  The code
(protocol.py lines 97-99) logs the error and falls through to the next
loop iteration: a command arriving after a transport error is still read
and dispatched, and in general a transport error only increments the log
count without stopping the loop. -/
theorem C2_handle_continues_after_transport_error :
    handle [StepEvent.transportErr, StepEvent.cmdOk 7] = ⟨[7], 0, 1⟩ ∧
    (∀ evs : List StepEvent, handle (StepEvent.transportErr :: evs) =
      ⟨(handle evs).dispatched, (handle evs).errorsSent,
        (handle evs).transportLogs + 1⟩) := by
  exact ⟨rfl, fun evs => rfl⟩

/-- C9: a well-formed frame with length prefix 0 is indistinguishable from
peer close: recv returns the same empty payload as for a closed stream,
recv_msg reports it as None (recvMsgClosed), and the handler loop exits
without dispatching anything, exactly as on disconnect. -/
theorem C9_zero_length_frame_close :
    (∀ (c0 : Option Nat) (rest : List Nat),
      recv c0 (packBE4 0 ++ rest) = ([], rest) ∧
      (recv c0 []).1 = [] ∧
      recvMsgClosed (recv c0 (packBE4 0 ++ rest)).1 = true) ∧
    (∀ evs : List StepEvent, handle (StepEvent.closed :: evs) = ⟨[], 0, 0⟩) := by
  constructor
  · intro c0 rest
    have hframe : recv c0 (packBE4 0 ++ rest) = ([], rest) := by
      simpa using recv_frame c0 [] rest (by decide)
    have hclosed : (recv c0 []).1 = [] := by
      unfold recv recviter
      rw [recvsize_of_gt c0 4 [] (by simp)]
    exact ⟨hframe, hclosed, by simp [hframe, recvMsgClosed]⟩
  · intro evs; rfl

/-- C1 counterexample: a DataMessage carrying a generator does not decode
back to itself: the encode hook replaces the generator by the
__generator__ sentinel and the decode hook materializes a fresh empty
generator (decode_generator yields from an empty tuple), so the item the
original generator would produce is gone. -/
theorem C1_counterexample :
    msgpackRoundtrip
        (Message.data (Value.generator (ValueSeq.cons (Value.int 1) ValueSeq.nil))) ≠
      some (Message.data (Value.generator (ValueSeq.cons (Value.int 1) ValueSeq.nil))) ∧
    msgpackRoundtrip
        (Message.data (Value.generator (ValueSeq.cons (Value.int 1) ValueSeq.nil))) =
      some (Message.data (Value.generator ValueSeq.nil)) := by
  exact ⟨by decide, by decide⟩

/-- C1 (amended): for every protocol message whose payload contains no
generator values and no mappings using the reserved marker keys
__datetime__ or __generator__, decoding the encoding returns the message
unchanged under the msgpack codec; under the json codec the same holds
when the payload additionally contains no bytes and no datetime values
(json.dumps cannot serialize those and the encode hook passes bytes
through unchanged). -/
theorem C1_message_roundtrip_amended (m : Message)
    (h : wireSafe (messageToValue m) = true) :
    msgpackRoundtrip m = some m ∧
    (jsonOk (messageToValue m) = true → jsonRoundtrip m = some m) := by
  constructor
  · unfold msgpackRoundtrip
    rw [hookDecode_hookEncode _ h]
    simp [valueToMessage_messageToValue]
  · intro hj
    unfold jsonRoundtrip
    rw [jsonEncode_of_jsonOk _ h hj]
    have hd := hookDecode_hookEncode (messageToValue m) h
    rw [hookEncode_of_jsonOk _ h hj] at hd
    simp [hd, valueToMessage_messageToValue]

theorem C1_witness :
    msgpackRoundtrip
        (Message.command "files" "put" (ValueSeq.cons (Value.str "a") ValueSeq.nil)
          (ValueMap.cons "k" (Value.int 3) ValueMap.nil)) =
      some (Message.command "files" "put" (ValueSeq.cons (Value.str "a") ValueSeq.nil)
        (ValueMap.cons "k" (Value.int 3) ValueMap.nil)) ∧
    jsonRoundtrip
        (Message.command "files" "put" (ValueSeq.cons (Value.str "a") ValueSeq.nil)
          (ValueMap.cons "k" (Value.int 3) ValueMap.nil)) =
      some (Message.command "files" "put" (ValueSeq.cons (Value.str "a") ValueSeq.nil)
        (ValueMap.cons "k" (Value.int 3) ValueMap.nil)) := by
  have h := C1_message_roundtrip_amended
    (Message.command "files" "put" (ValueSeq.cons (Value.str "a") ValueSeq.nil)
      (ValueMap.cons "k" (Value.int 3) ValueMap.nil)) (by decide)
  exact ⟨h.1, h.2 (by decide)⟩

/-- C6: send_cmd raises ParameterError before the CommandMessage is sent
whenever the positional and keyword arguments together contain two or more
generator (stream) values, so nothing at all is written to the connection
for that call; with at most one stream argument this check raises nothing
and the CommandMessage is the first message written. -/
theorem C6_single_stream_argument (svc cmd : String) (args : ValueSeq) (kwargs : ValueMap) :
    (2 ≤ countGensSeq args + countGensMap kwargs →
      send_cmd svc cmd args kwargs =
        ([], some (PyError.parameterError "only one stream param is possible"))) ∧
    (countGensSeq args + countGensMap kwargs ≤ 1 →
      (send_cmd svc cmd args kwargs).2 = Option.none ∧
      ∃ tail, (send_cmd svc cmd args kwargs).1 =
        Message.command svc cmd args kwargs :: tail) := by
  have hz : stCount (Option.none : Option Value) = 0 := rfl
  constructor
  · intro h2
    by_cases ha : 2 ≤ countGensSeq args
    · have he := scanStream_err args Option.none (by omega)
      simp [send_cmd, he]
    · obtain ⟨st2, hok, hc⟩ := scanStream_ok args Option.none (by omega)
      have hc2 : stCount st2 = countGensSeq args := hc.trans (by omega)
      have he := scanStreamMap_err kwargs st2 (by omega)
      simp [send_cmd, hok, he]
  · intro h1
    obtain ⟨st2, hok, hc⟩ := scanStream_ok args Option.none (by omega)
    have hc2 : stCount st2 = countGensSeq args := hc.trans (by omega)
    obtain ⟨st3, hok2, hc3⟩ := scanStreamMap_ok kwargs st2 (by omega)
    refine ⟨by simp [send_cmd, hok, hok2],
      ⟨(match st3 with | some g => streamFrames g | Option.none => []), ?_⟩⟩
    simp only [send_cmd, hok, hok2]
    cases st3 <;> rfl

theorem C6_witness :
    send_cmd "s" "c"
        (ValueSeq.cons (Value.generator ValueSeq.nil)
          (ValueSeq.cons (Value.generator ValueSeq.nil) ValueSeq.nil)) ValueMap.nil =
      ([], some (PyError.parameterError "only one stream param is possible")) ∧
    (send_cmd "s" "c" (ValueSeq.cons (Value.generator ValueSeq.nil) ValueSeq.nil)
        ValueMap.nil).2 = Option.none := by
  exact ⟨(C6_single_stream_argument "s" "c" _ _).1 (by decide),
    ((C6_single_stream_argument "s" "c" _ _).2 (by decide)).1⟩


/-! ## Claim theorems: handshake, registration, proxy lookup, retry -/

/-- C7: during the client handshake, after sending the 0x00 request, a
received payload whose first byte is not 0x00 does not raise the
ProtocolOpError the claim names: the code refers to errors.HandshakeError,
which snekrpc.errors does not define, so the raise statement itself fails
with AttributeError.  A payload starting with 0x00 installs the remainder
as the codec name, as the claim says. -/
theorem C7_handshake_opcode (rest : List Nat) :
    req_handshake false (1 :: rest) =
      Except.error (PyError.attributeError "HandshakeError") ∧
    (∀ op : Nat, req_handshake false (1 :: rest) ≠
      Except.error (PyError.protocolOpError op)) ∧
    req_handshake false (0 :: rest) = Except.ok (some rest) := by
  refine ⟨by simp [req_handshake], ?_, by simp [req_handshake]⟩
  intro op
  simp [req_handshake]

theorem C7_witness :
    req_handshake false [1, 109, 115, 103] =
      Except.error (PyError.attributeError "HandshakeError") ∧
    req_handshake false [0, 109, 115, 103] = Except.ok (some [109, 115, 103]) := by
  exact ⟨(C7_handshake_opcode [109, 115, 103]).1, (C7_handshake_opcode [109, 115, 103]).2.2⟩

theorem dictSet_mem (k : String) (v : ServiceInst) :
    ∀ l : List (String × ServiceInst), k ∈ l.map Prod.fst →
      (dictSet k v l).map Prod.fst = l.map Prod.fst ∧
      alookup k (dictSet k v l) = some v := by
  intro l
  induction l with
  | nil => intro h; simp at h
  | cons kv rest ih =>
    obtain ⟨k0, v0⟩ := kv
    intro h
    by_cases hk : k0 = k
    · constructor
      · simp [dictSet, hk]
      · simp [dictSet, hk, alookup]
    · have hmem : k ∈ rest.map Prod.fst := by
        simp only [List.map_cons, List.mem_cons] at h
        rcases h with h | h
        · exact absurd h.symm hk
        · exact h
      constructor
      · simp only [dictSet, hk, if_false, List.map_cons]
        rw [(ih hmem).1]
      · simp only [dictSet, hk, if_false, alookup]
        exact (ih hmem).2

theorem dictSet_not_mem (k : String) (v : ServiceInst) :
    ∀ l : List (String × ServiceInst), k ∉ l.map Prod.fst →
      dictSet k v l = l ++ [(k, v)] := by
  intro l
  induction l with
  | nil => intro _; rfl
  | cons kv rest ih =>
    intro h
    have hk : kv.1 ≠ k := by
      intro he
      exact h (by simp [he])
    have hmem : k ∉ rest.map Prod.fst := by
      intro hm
      exact h (by simp [hm])
    simp [dictSet, hk, ih hmem]


/-- C8 counterexample: registering a second service under an
already-registered name raises no RegistryError (add_service has no
failure path at all) and does not leave the registry unchanged: the new
instance silently replaces the old one. -/
theorem C8_counterexample :
    add_service (add_service [] ⟨"files", 1⟩ Option.none) ⟨"files", 2⟩ Option.none =
      [("files", ⟨"files", 2⟩)] ∧
    add_service (add_service [] ⟨"files", 1⟩ Option.none) ⟨"files", 2⟩ Option.none ≠
      add_service [] ⟨"files", 1⟩ Option.none := by
  exact ⟨by decide, by decide⟩

/-- C8 (amended): registering a service under a name (or alias) that is
already registered silently replaces the existing entry, keeping the key
set unchanged and raising no error; registering under a fresh name appends
exactly that one entry. -/
theorem C8_add_service_amended (services : List (String × ServiceInst))
    (svc : ServiceInst) (alias0 : Option String) :
    (alias0.getD svc.sname ∈ services.map Prod.fst →
      (add_service services svc alias0).map Prod.fst = services.map Prod.fst ∧
      alookup (alias0.getD svc.sname) (add_service services svc alias0) = some svc) ∧
    (alias0.getD svc.sname ∉ services.map Prod.fst →
      add_service services svc alias0 = services ++ [(alias0.getD svc.sname, svc)]) := by
  exact ⟨fun h => dictSet_mem _ svc services h,
    fun h => dictSet_not_mem _ svc services h⟩

theorem C8_witness :
    (add_service [("files", ⟨"files", 1⟩)] ⟨"files", 2⟩ Option.none).map Prod.fst =
      ["files"] ∧
    alookup "files" (add_service [("files", ⟨"files", 1⟩)] ⟨"files", 2⟩ Option.none) =
      some ⟨"files", 2⟩ ∧
    add_service [("files", ⟨"files", 1⟩)] ⟨"health", 7⟩ Option.none =
      [("files", ⟨"files", 1⟩), ("health", ⟨"health", 7⟩)] := by
  have h1 := (C8_add_service_amended [("files", ⟨"files", 1⟩)] ⟨"files", 2⟩
    Option.none).1 (by decide)
  have h2 := (C8_add_service_amended [("files", ⟨"files", 1⟩)] ⟨"health", 7⟩
    Option.none).2 (by decide)
  exact ⟨h1.1, h1.2, h2⟩

/-- C10: a proxy built with command_metadata=False has an empty command
cache, so attribute access with any command name returns a lazily wrapped
callable and never raises AttributeError; in general __getattr__ raises
AttributeError exactly when the cache is non-empty and the name is absent
from it. -/
theorem C10_proxy_getattr (remote : List CommandSpec) (nm : String)
    (cmds : List (String × BoundCommand)) :
    proxyGetattr (proxyCommands CmdMetaArg.fls remote) nm =
      Except.ok ⟨nm, Option.none⟩ ∧
    ((∃ e, proxyGetattr cmds nm = Except.error e) ↔
      cmds ≠ [] ∧ alookup nm cmds = Option.none) := by
  constructor
  · rfl
  · constructor
    · rintro ⟨e, he⟩
      match hc : cmds with
      | [] => simp [proxyGetattr] at he
      | kv :: rest =>
        refine ⟨by simp, ?_⟩
        cases hl : alookup nm (kv :: rest) with
        | some w => simp [proxyGetattr, hl] at he
        | none => rfl
    · rintro ⟨hne, hl⟩
      match cmds with
      | [] => exact absurd rfl hne
      | kv :: rest =>
        exact ⟨PyError.attributeError nm, by simp [proxyGetattr, hl]⟩

/-- C3 counterexample: with retry_count 1, a streaming call that delivers
the value 7 and then hits a retry-eligible transport error is restarted
from scratch instead of propagating the error, and the already-delivered
7 is delivered a second time. -/
theorem C3_counterexample :
    retry_wrap_gen 1 [⟨[7], AttemptEnd.errEligible⟩, ⟨[7, 8], AttemptEnd.ok⟩] =
      ([7, 7, 8], GenOutcome.finished) ∧
    (retry_wrap_gen 1 [⟨[7], AttemptEnd.errEligible⟩,
      ⟨[7, 8], AttemptEnd.ok⟩]).2 ≠ GenOutcome.raisedEligible ∧
    2 ≤ (retry_wrap_gen 1 [⟨[7], AttemptEnd.errEligible⟩,
      ⟨[7, 8], AttemptEnd.ok⟩]).1.count 7 := by
  exact ⟨by decide, by decide, by decide⟩

/-- C3 (amended): under the retry policy a streaming call restarts from
scratch on every eligible error while retries remain (count negative, or
fewer than count used), regardless of whether values have already been
delivered, so the consumer receives the concatenation of everything every
consumed attempt yielded, and already-delivered values can be delivered
again; only when no retries remain (in particular count = 0) does the
eligible error propagate to the consumer. -/
theorem C3_retry_restarts_streams (count : Int) :
    (∀ (retries : Int) (attempts : List Attempt),
      (call_gen count retries attempts).1 =
        ((retryConsumed count retries attempts).map Attempt.values).flatten) ∧
    (∀ (a : Attempt) (rest : List Attempt), a.outcome = AttemptEnd.errEligible →
      ((count < 0 ∨ 1 ≤ count) →
        retry_wrap_gen count (a :: rest) =
          (a.values ++ (call_gen count 1 rest).1, (call_gen count 1 rest).2)) ∧
      (count = 0 →
        retry_wrap_gen count (a :: rest) = (a.values, GenOutcome.raisedEligible))) := by
  constructor
  · intro retries attempts
    induction attempts generalizing retries with
    | nil => simp [call_gen, retryConsumed]
    | cons a rest ih =>
      match ho : a.outcome with
      | AttemptEnd.ok => simp [call_gen, retryConsumed, ho]
      | AttemptEnd.errIneligible => simp [call_gen, retryConsumed, ho]
      | AttemptEnd.errEligible =>
        by_cases hcnt : retries ≥ count ∧ count ≥ 0
        · simp [call_gen, retryConsumed, ho, hcnt]
        · simp [call_gen, retryConsumed, ho, hcnt, ih]
  · intro a rest ha
    constructor
    · intro hcount
      have hcnt : ¬ ((0 : Int) ≥ count ∧ count ≥ 0) := by omega
      simp [retry_wrap_gen, call_gen, ha, hcnt]
    · intro hzero
      subst hzero
      simp [retry_wrap_gen, call_gen, ha]

theorem C3_witness :
    retry_wrap_gen 1 [⟨[5], AttemptEnd.errEligible⟩, ⟨[6], AttemptEnd.ok⟩] =
      ([5, 6], GenOutcome.finished) ∧
    retry_wrap_gen 0 [⟨[5], AttemptEnd.errEligible⟩, ⟨[6], AttemptEnd.ok⟩] =
      ([5], GenOutcome.raisedEligible) := by
  constructor
  · have h := ((C3_retry_restarts_streams 1).2 ⟨[5], AttemptEnd.errEligible⟩
      [⟨[6], AttemptEnd.ok⟩] rfl).1 (Or.inr (by norm_num))
    rw [h]; rfl
  · exact ((C3_retry_restarts_streams 0).2 ⟨[5], AttemptEnd.errEligible⟩
      [⟨[6], AttemptEnd.ok⟩] rfl).2 rfl


/-! ## Signature round-trip lemmas -/

theorem alookup_mem {α : Type} (k : String) :
    ∀ (l : List (String × α)) (v : α), alookup k l = some v → (k, v) ∈ l := by
  intro l
  induction l with
  | nil => intro v h; simp [alookup] at h
  | cons kv rest ih =>
    obtain ⟨k0, v0⟩ := kv
    intro v h
    simp only [alookup] at h
    by_cases hk : k0 = k
    · rw [if_pos hk] at h
      subst hk
      simp at h
      simp [h]
    · rw [if_neg hk] at h
      exact List.mem_cons_of_mem _ (ih v h)

theorem sigEntry_fields (st0 : Option StoredParam) (p : SigParam)
    (hst : ∀ st, st0 = some st → st.kind = Option.none ∧ st.default = Option.none) :
    (sigEntry st0 p).name = p.name ∧ (sigEntry st0 p).kind = p.kind ∧
      (sigEntry st0 p).default = p.default := by
  match st0 with
  | Option.none => exact ⟨rfl, rfl, rfl⟩
  | some st =>
    obtain ⟨hk, hd⟩ := hst st rfl
    simp [sigEntry, updateEntry, hk, hd]

theorem sigEntry_hintInv (st0 : Option StoredParam) (p : SigParam)
    (hst : ∀ st, st0 = some st → st.default = Option.none) :
    (sigEntry st0 p).hint = Option.none →
      (sigEntry st0 p).default = Option.none ∨
        (sigEntry st0 p).default = some PyVal.none := by
  match st0 with
  | Option.none =>
    intro h
    simp only [sigEntry] at h ⊢
    match hp : p.default with
    | Option.none => exact Or.inl rfl
    | some d =>
      rw [hp] at h
      by_cases hd : d = PyVal.none
      · exact Or.inr (by rw [hd])
      · simp [hd] at h
  | some st =>
    intro h
    have hd := hst st rfl
    simp only [sigEntry, updateEntry, hd] at h ⊢
    match hh : st.hint with
    | some x => rw [hh] at h; simp at h
    | Option.none =>
      rw [hh] at h
      simp only [] at h
      match hp : p.default with
      | Option.none => exact Or.inl rfl
      | some d =>
        rw [hp] at h
        by_cases hdd : d = PyVal.none
        · exact Or.inr (by rw [hdd])
        · simp [hdd] at h

theorem sigEntry_of_stored (q : SigParam) (e : ParamEntry)
    (hq : q.name = e.name) (hd : q.default = e.default)
    (hhint : e.hint = Option.none →
      e.default = Option.none ∨ e.default = some PyVal.none) :
    sigEntry (some (entryToStored e)) q = e := by
  obtain ⟨en, ek, ed, eh, edoc, ehide⟩ := e
  cases ed with
  | none =>
    cases eh <;> cases edoc <;>
      simp [sigEntry, updateEntry, entryToStored, hq, hd]
  | some d =>
    cases eh with
    | none =>
      rcases hhint rfl with hc | hc
      · exact absurd hc (by simp)
      · have hdn : d = PyVal.none := by
          simpa using hc
        subst hdn
        cases edoc <;>
          simp [sigEntry, updateEntry, entryToStored, hq, hd]
    | some x =>
      cases edoc <;>
        simp [sigEntry, updateEntry, entryToStored, hq, hd]

theorem genSig_names : ∀ (es : List ParamEntry) (b : Bool),
    (genSig b es).map SigParam.name = es.map ParamEntry.name := by
  intro es
  induction es with
  | nil => intro b; rfl
  | cons e rest ih =>
    intro b
    by_cases h2 : e.kind == 2
    · simp [genSig, h2, ih]
    · by_cases h4 : e.kind == 4
      · simp [genSig, h2, h4, ih]
      · simp [genSig, h2, h4, ih]

theorem pySigValid_kinds : ∀ (ps : List SigParam) (stage : Nat) (sd : Bool),
    pySigValid stage sd ps = true →
    ∀ p ∈ ps, p.kind = 0 ∨ p.kind = 1 ∨ p.kind = 2 ∨ p.kind = 4 := by
  intro ps
  induction ps with
  | nil => intro stage sd _ p hp; simp at hp
  | cons p0 rest ih =>
    intro stage sd h p hp
    simp only [pySigValid] at h
    rcases List.mem_cons.mp hp with he | hm
    · subst he
      by_cases h01 : (p.kind == 0 || p.kind == 1) = true
      · rcases Bool.or_eq_true_iff.mp h01 with h0 | h0 <;>
          simp only [beq_iff_eq] at h0 <;> omega
      · rw [if_neg h01] at h
        by_cases h2 : (p.kind == 2) = true
        · simp only [beq_iff_eq] at h2; omega
        · rw [if_neg h2] at h
          by_cases h4 : (p.kind == 4) = true
          · simp only [beq_iff_eq] at h4; omega
          · rw [if_neg h4] at h
            exact absurd h (by simp)
    · by_cases h01 : (p0.kind == 0 || p0.kind == 1) = true
      · rw [if_pos h01] at h
        simp only [Bool.and_eq_true] at h
        rcases h with ⟨_, h⟩
        by_cases hds : p0.default.isSome = true
        · rw [if_pos hds] at h
          exact ih _ _ h p hm
        · rw [if_neg hds] at h
          simp only [Bool.and_eq_true] at h
          exact ih _ _ h.2 p hm
      · rw [if_neg h01] at h
        by_cases h2 : (p0.kind == 2) = true
        · rw [if_pos h2] at h
          simp only [Bool.and_eq_true] at h
          exact ih _ _ h.2 p hm
        · rw [if_neg h2] at h
          by_cases h4 : (p0.kind == 4) = true
          · rw [if_pos h4] at h
            simp only [Bool.and_eq_true] at h
            exact ih _ _ h.2 p hm
          · rw [if_neg h4] at h
            exact absurd h (by simp)


theorem pySigValid_five (sd : Bool) (p : SigParam) (rest : List SigParam) :
    pySigValid 5 sd (p :: rest) = false := by
  simp only [pySigValid]
  by_cases h01 : (p.kind == 0 || p.kind == 1) = true
  · rw [if_pos h01]
    have hk1 : p.kind ≤ 1 := by
      rcases Bool.or_eq_true_iff.mp h01 with h0 | h0 <;>
        simp only [beq_iff_eq] at h0 <;> omega
    have : ¬ (5 ≤ p.kind) := by omega
    simp [this]
  · rw [if_neg h01]
    by_cases h2 : (p.kind == 2) = true
    · rw [if_pos h2]
      simp
    · rw [if_neg h2]
      by_cases h4 : (p.kind == 4) = true
      · rw [if_pos h4]
        simp
      · rw [if_neg h4]

theorem validDefGo_of_pySigValid (g : SigParam → ParamEntry)
    (hg : ∀ p, (g p).kind = p.kind ∧ (g p).default = p.default) :
    ∀ (ps : List SigParam) (stage : Nat) (sd : Bool),
      pySigValid stage sd ps = true →
      validDefGo (decide (3 ≤ stage)) sd (decide (5 ≤ stage)) (ps.map g) = true := by
  intro ps
  induction ps with
  | nil => intro stage sd _; simp [validDefGo]
  | cons p rest ih =>
    intro stage sd h
    obtain ⟨hk, hd⟩ := hg p
    simp only [pySigValid] at h
    simp only [List.map_cons, validDefGo, hk, hd]
    by_cases h01 : (p.kind == 0 || p.kind == 1) = true
    · rw [if_pos h01] at h
      simp only [Bool.and_eq_true, decide_eq_true_eq] at h
      obtain ⟨hstage, h⟩ := h
      have hk1 : p.kind ≤ 1 := by
        rcases Bool.or_eq_true_iff.mp h01 with h0 | h0 <;>
          simp only [beq_iff_eq] at h0 <;> omega
      have hs3 : decide (3 ≤ stage) = false := by simp; omega
      have hs5 : decide (5 ≤ stage) = false := by simp; omega
      have hk2 : (p.kind == 2) = false := by simp; omega
      have hk4 : (p.kind == 4) = false := by simp; omega
      rw [hs3, hs5]
      simp only [hk2, hk4, Bool.false_eq_true, if_false]
      by_cases hdef : p.default.isSome = true
      · rw [if_pos hdef] at h
        rw [if_pos hdef]
        have := ih p.kind true h
        rwa [show decide (3 ≤ p.kind) = false by simp; omega,
          show decide (5 ≤ p.kind) = false by simp; omega] at this
      · rw [if_neg hdef] at h
        simp only [Bool.and_eq_true] at h
        rw [if_neg hdef]
        have := ih p.kind false h.2
        rw [show decide (3 ≤ p.kind) = false by simp; omega,
          show decide (5 ≤ p.kind) = false by simp; omega] at this
        simp [h.1, this]
    · rw [if_neg h01] at h
      by_cases h2 : (p.kind == 2) = true
      · rw [if_pos h2] at h
        simp only [Bool.and_eq_true, decide_eq_true_eq] at h
        obtain ⟨⟨hstage, hdnone⟩, hrest⟩ := h
        have hs3 : decide (3 ≤ stage) = false := by simp; omega
        have hs5 : decide (5 ≤ stage) = false := by simp; omega
        rw [hs3, hs5]
        simp only [h2, Bool.false_eq_true, if_false, if_true]
        have := ih 3 sd hrest
        rw [show decide (3 ≤ 3) = true by simp,
          show decide (5 ≤ 3) = false by simp] at this
        simp [hdnone, this]
      · rw [if_neg h2] at h
        by_cases h4 : (p.kind == 4) = true
        · rw [if_pos h4] at h
          simp only [Bool.and_eq_true, decide_eq_true_eq] at h
          obtain ⟨⟨hstage, hdnone⟩, hrest⟩ := h
          have hs5 : decide (5 ≤ stage) = false := by simp; omega
          rw [hs5]
          simp only [h2, h4, Bool.false_eq_true, if_false, if_true]
          match rest with
          | [] => simp [hdnone, validDefGo]
          | q :: rest2 =>
            rw [pySigValid_five sd q rest2] at hrest
            exact absurd hrest (by simp)
        · rw [if_neg h4] at h
          exact absurd h (by simp)


theorem alookup_map_self : ∀ (l : List ParamEntry),
    distinctNames (l.map ParamEntry.name) = true →
    ∀ e ∈ l, alookup e.name (l.map fun x => (x.name, entryToStored x)) =
      some (entryToStored e) := by
  intro l
  induction l with
  | nil => intro _ e he; simp at he
  | cons e0 rest ih =>
    intro hd e he
    simp only [List.map_cons, distinctNames, Bool.and_eq_true] at hd
    obtain ⟨hall, hrest⟩ := hd
    rcases List.mem_cons.mp he with he0 | hm
    · subst he0
      simp [alookup]
    · have hne : e0.name ≠ e.name := by
        intro hcontra
        have hmemname : e.name ∈ rest.map ParamEntry.name :=
          List.mem_map.mpr ⟨e, hm, rfl⟩
        have := List.all_eq_true.mp hall _ hmemname
        simp [hcontra] at this
      simp only [List.map_cons, alookup]
      rw [if_neg hne]
      exact ih hrest e hm

theorem roundtrip_entries : ∀ (es : List ParamEntry) (b : Bool)
    (m : List (String × StoredParam)),
    (∀ e ∈ es, alookup e.name m = some (entryToStored e)) →
    (∀ e ∈ es, e.hint = Option.none →
      e.default = Option.none ∨ e.default = some PyVal.none) →
    (genSig b es).map (fun q => sigEntry (alookup q.name m) q) = es := by
  intro es
  induction es with
  | nil => intro b m _ _; rfl
  | cons e rest ih =>
    intro b m hl hh
    have hle : alookup e.name m = some (entryToStored e) := hl e (List.mem_cons_self _ _)
    have hhe := hh e (List.mem_cons_self _ _)
    have hltail : ∀ x ∈ rest, alookup x.name m = some (entryToStored x) :=
      fun x hx => hl x (List.mem_cons_of_mem _ hx)
    have hhtail : ∀ x ∈ rest, x.hint = Option.none →
        x.default = Option.none ∨ x.default = some PyVal.none :=
      fun x hx => hh x (List.mem_cons_of_mem _ hx)
    have hstep : ∀ K : Nat,
        sigEntry (alookup (SigParam.mk e.name K e.default).name m)
          (SigParam.mk e.name K e.default) = e := by
      intro K
      dsimp only
      rw [hle]
      exact sigEntry_of_stored _ _ rfl rfl hhe
    by_cases h2 : (e.kind == 2) = true
    · simp only [genSig, h2, if_true, List.map_cons]
      rw [hstep 2, ih true m hltail hhtail]
    · by_cases h4 : (e.kind == 4) = true
      · simp only [genSig, h2, h4, Bool.false_eq_true, if_false, if_true, List.map_cons]
        rw [hstep 4, ih b m hltail hhtail]
      · simp only [genSig, h2, h4, Bool.false_eq_true, if_false, List.map_cons]
        rw [hstep (if b then 3 else 1), ih b m hltail hhtail]

theorem anyName_of_mem (l : List SigParam) (k : String)
    (h : k ∈ l.map SigParam.name) : (l.any fun p => p.name == k) = true := by
  rcases List.mem_map.mp h with ⟨p, hp, rfl⟩
  exact List.any_eq_true.mpr ⟨p, hp, by simp⟩

/-- C4 counterexample: a command signature containing a keyword-only
parameter (kind 3) does not round-trip: dict_to_func silently drops the
parameter (function.py lines 140-141), so re-encoding the reconstructed
callable returns a spec without it. -/
theorem C4_counterexample :
    (dict_to_func (func_to_dict
        ⟨"f", Option.none, [⟨"a", 3, Option.none⟩], [], Option.none, false⟩)).map
        func_to_dict ≠
      some (func_to_dict
        ⟨"f", Option.none, [⟨"a", 3, Option.none⟩], [], Option.none, false⟩) ∧
    dict_to_func (func_to_dict
        ⟨"f", Option.none, [⟨"a", 3, Option.none⟩], [], Option.none, false⟩) =
      some ⟨"f", Option.none, [], [], Option.none, false⟩ := by
  exact ⟨by decide, by decide⟩

/-- C4 (amended): for every command signature without keyword-only
parameters — a valid name, kinds from positional-only,
positional-or-keyword, var-positional and var-keyword, decorator metadata
only about signature parameters — encoding with func_to_dict, rebuilding
with dict_to_func, and re-encoding the rebuilt callable returns the same
spec: name, doc, parameter names, kinds, defaults, hints, stream marker
and generator-ness all round-trip.  Keyword-only parameters are the
exception the counterexample exhibits. -/
theorem C4_signature_roundtrip_amended (f : FuncModel) (h : wellFormedFunc f = true) :
    ∃ f2, dict_to_func (func_to_dict f) = some f2 ∧ func_to_dict f2 = func_to_dict f := by
  simp only [wellFormedFunc, Bool.and_eq_true] at h
  obtain ⟨⟨⟨⟨hname, hdn⟩, hids⟩, hsig⟩, hmeta⟩ := h
  have hst : ∀ (nm : String) (st : StoredParam), alookup nm f.metaParams = some st →
      st.kind = Option.none ∧ st.default = Option.none := by
    intro nm st hla
    have hmem := alookup_mem nm f.metaParams st hla
    have hfacts := List.all_eq_true.mp hmeta _ hmem
    simp only [Bool.and_eq_true, Option.isNone_iff_eq_none] at hfacts
    exact ⟨hfacts.1.1, hfacts.1.2⟩
  have hgfields : ∀ p : SigParam,
      (sigEntry (alookup p.name f.metaParams) p).name = p.name ∧
      (sigEntry (alookup p.name f.metaParams) p).kind = p.kind ∧
      (sigEntry (alookup p.name f.metaParams) p).default = p.default :=
    fun p => sigEntry_fields _ p (fun st hst0 => hst p.name st hst0)
  have hghint : ∀ p : SigParam,
      (sigEntry (alookup p.name f.metaParams) p).hint = Option.none →
      (sigEntry (alookup p.name f.metaParams) p).default = Option.none ∨
        (sigEntry (alookup p.name f.metaParams) p).default = some PyVal.none :=
    fun p => sigEntry_hintInv _ p (fun st hst0 => (hst p.name st hst0).2)
  have hleft : (f.metaParams.filter fun kv => !(f.sig.any fun p => p.name == kv.1)) = [] := by
    rw [List.filter_eq_nil_iff]
    intro kv hkv
    have hfacts := List.all_eq_true.mp hmeta _ hkv
    simp only [Bool.and_eq_true] at hfacts
    simp [hfacts.2]
  have hFD : func_to_dict f =
      ⟨f.name, f.doc, f.sig.map fun p => sigEntry (alookup p.name f.metaParams) p,
        f.metaStream, f.isgen⟩ := by
    simp only [func_to_dict, hleft, List.map_nil, List.append_nil]
  have hkinds : ∀ p ∈ f.sig, p.kind = 0 ∨ p.kind = 1 ∨ p.kind = 2 ∨ p.kind = 4 :=
    pySigValid_kinds f.sig 0 false hsig
  have hvalid : (f.sig.map fun p => sigEntry (alookup p.name f.metaParams) p).all
      (fun e => is_identifier e.name && decide (e.kind ≤ 4)) = true := by
    rw [List.all_eq_true]
    intro e he
    rcases List.mem_map.mp he with ⟨p, hp, rfl⟩
    obtain ⟨hn, hk, _⟩ := hgfields p
    have hident := List.all_eq_true.mp hids p hp
    have hkind := hkinds p hp
    rw [Bool.and_eq_true, hn, hk]
    constructor
    · exact hident
    · simp; omega
  have hkeep : (f.sig.map fun p => sigEntry (alookup p.name f.metaParams) p).filter
      (fun e => !(e.kind == 3)) =
      f.sig.map fun p => sigEntry (alookup p.name f.metaParams) p := by
    rw [List.filter_eq_self]
    intro e he
    rcases List.mem_map.mp he with ⟨p, hp, rfl⟩
    have hkind := hkinds p hp
    obtain ⟨_, hk, _⟩ := hgfields p
    rw [hk]
    simp
    omega
  have hnamesmap : (f.sig.map fun p => sigEntry (alookup p.name f.metaParams) p).map
      ParamEntry.name = f.sig.map SigParam.name := by
    rw [List.map_map]
    exact List.map_congr_left fun p _ => (hgfields p).1
  have hdn2 : distinctNames ((f.sig.map fun p =>
      sigEntry (alookup p.name f.metaParams) p).map ParamEntry.name) = true := by
    rw [hnamesmap]
    exact hdn
  have hvdg : validDefGo false false false
      (f.sig.map fun p => sigEntry (alookup p.name f.metaParams) p) = true := by
    have hv := validDefGo_of_pySigValid _
      (fun p => ⟨(hgfields p).2.1, (hgfields p).2.2⟩) f.sig 0 false hsig
    simpa using hv
  have hcond : (is_identifier f.name &&
      distinctNames ((f.sig.map fun p =>
        sigEntry (alookup p.name f.metaParams) p).map ParamEntry.name) &&
      validDefGo false false false
        (f.sig.map fun p => sigEntry (alookup p.name f.metaParams) p)) = true := by
    rw [hname, hdn2, hvdg]
    rfl
  refine ⟨⟨f.name, f.doc,
    genSig false (f.sig.map fun p => sigEntry (alookup p.name f.metaParams) p),
    (f.sig.map fun p => sigEntry (alookup p.name f.metaParams) p).map
      (fun e => (e.name, entryToStored e)),
    f.metaStream, f.isgen⟩, ?_, ?_⟩
  · rw [hFD]
    simp only [dict_to_func]
    rw [hkeep]
    rw [if_pos hvalid, if_pos hcond]
  · rw [hFD]
    simp only [func_to_dict]
    have hE2 : (genSig false (f.sig.map fun p =>
        sigEntry (alookup p.name f.metaParams) p)).map
        (fun q => sigEntry (alookup q.name
          ((f.sig.map fun p => sigEntry (alookup p.name f.metaParams) p).map
            (fun e => (e.name, entryToStored e)))) q) =
        f.sig.map fun p => sigEntry (alookup p.name f.metaParams) p := by
      apply roundtrip_entries
      · exact alookup_map_self _ hdn2
      · intro e he
        rcases List.mem_map.mp he with ⟨p, _, rfl⟩
        exact hghint p
    have hleft2 : ((f.sig.map fun p =>
        sigEntry (alookup p.name f.metaParams) p).map
          (fun e => (e.name, entryToStored e))).filter
        (fun kv => !((genSig false (f.sig.map fun p =>
          sigEntry (alookup p.name f.metaParams) p)).any
            fun p => p.name == kv.1)) = [] := by
      rw [List.filter_eq_nil_iff]
      intro kv hkv
      rcases List.mem_map.mp hkv with ⟨e, hmemE, rfl⟩
      have hnm : e.name ∈ (genSig false (f.sig.map fun p =>
          sigEntry (alookup p.name f.metaParams) p)).map SigParam.name := by
        rw [genSig_names]
        exact List.mem_map.mpr ⟨e, hmemE, rfl⟩
      have := anyName_of_mem _ _ hnm
      simp [this]
    rw [hE2, hleft2, List.map_nil, List.append_nil]


theorem C4_witness :
    ∃ f2, dict_to_func (func_to_dict
        ⟨"cmd", some "d",
          [⟨"a", 1, Option.none⟩, ⟨"b", 1, some (PyVal.int 5)⟩,
           ⟨"c", 2, Option.none⟩, ⟨"d", 4, Option.none⟩],
          [("a", ⟨Option.none, Option.none, some "int", some "a param", false⟩)],
          some "a", true⟩) = some f2 ∧
      func_to_dict f2 = func_to_dict
        ⟨"cmd", some "d",
          [⟨"a", 1, Option.none⟩, ⟨"b", 1, some (PyVal.int 5)⟩,
           ⟨"c", 2, Option.none⟩, ⟨"d", 4, Option.none⟩],
          [("a", ⟨Option.none, Option.none, some "int", some "a param", false⟩)],
          some "a", true⟩ := by
  exact C4_signature_roundtrip_amended _ (by decide)

end Snekrpc
